import Mathlib

/-!
Shallow embedding of `app.py` (Eventbrite AI-Powered Event Scraper demo).

The program has three relevant pieces:
* `simulate_gemini_api_call` (src/app.py:11-61) — the stub backend: it
  ignores its inputs and returns `json.dumps` of a fixed mock object with
  four event records;
* the "Search Events" click handler (src/app.py:73-97) — rejects an empty
  query with a warning, otherwise calls the stub, then `json.loads` the
  response inside a `try` that catches only `json.JSONDecodeError`, reads
  `events_data.get("events", [])` and branches on Python truthiness;
* the wire format — a JSON document with an `events` key holding an array
  of records, each with the five string fields `Event Title`, `Location`,
  `Date`, `Time`, `Price`.

Python strings are modelled as `List Char` (sequences of Unicode scalar
values).  `json.loads` is modelled by a fueled recursive-descent parser
`parseValue` following CPython's `json.decoder` (its whitespace, string
escape, number, constant and delimiter handling), and `json.dumps` by
`dumpsVal` following CPython's `json.encoder` with its default arguments
(`ensure_ascii=True`, separators `", "` and `": "`).  The single known
infidelity is documented at `readStr`: CPython can produce lone UTF-16
surrogates from `\uXXXX` escapes, which Lean `Char` cannot represent;
such escapes decode to U+FFFD here.  No theorem below depends on the
character produced in that case.
-/

mutual
/-- JSON values as produced by `json.loads`.  Numbers keep their source
lexeme: the program never inspects numeric values (its data is all
strings), so no floating-point semantics is needed. -/
inductive Json where
  | null : Json
  | bool (b : Bool) : Json
  | num (lexeme : List Char) : Json
  | str (s : List Char) : Json
  | arr (elems : JsonList) : Json
  | obj (members : JsonMembers) : Json

/-- A parsed JSON array's elements. -/
inductive JsonList where
  | nil : JsonList
  | cons (hd : Json) (tl : JsonList) : JsonList

/-- A parsed JSON object's `key: value` members, in source order. -/
inductive JsonMembers where
  | nil : JsonMembers
  | cons (key : List Char) (val : Json) (tl : JsonMembers) : JsonMembers
end

/-- Length of a parsed JSON array. -/
def JsonList.length : JsonList → Nat
  | .nil => 0
  | .cons _ tl => 1 + tl.length

/-- Number of members of a parsed JSON object. -/
def JsonMembers.length : JsonMembers → Nat
  | .nil => 0
  | .cons _ _ tl => 1 + tl.length

/-- All member values are JSON strings (true of every record the program
serializes). -/
def membersAllStr : JsonMembers → Bool
  | .nil => true
  | .cons _ v tl =>
    (match v with
     | .str _ => true
     | _ => false) && membersAllStr tl

/-- JSON whitespace, as skipped by CPython's decoder (regex `[ \t\n\r]*`). -/
def isJsonWs (c : Char) : Bool :=
  c = ' ' || c = '\t' || c = '\n' || c = '\r'

/-- Drop leading JSON whitespace. -/
def skipWs : List Char → List Char
  | [] => []
  | c :: cs => if isJsonWs c then skipWs cs else c :: cs

/-- Value of one hexadecimal digit (`json.decoder` accepts both cases). -/
def hexVal (c : Char) : Option Nat :=
  if '0' ≤ c ∧ c ≤ '9' then some (c.toNat - '0'.toNat)
  else if 'a' ≤ c ∧ c ≤ 'f' then some (c.toNat - 'a'.toNat + 10)
  else if 'A' ≤ c ∧ c ≤ 'F' then some (c.toNat - 'A'.toNat + 10)
  else none

/-- Value of a four-digit hexadecimal escape body. -/
def hex4 (a b c d : Char) : Option Nat :=
  match hexVal a, hexVal b, hexVal c, hexVal d with
  | some x, some y, some z, some w => some (x * 4096 + y * 256 + z * 16 + w)
  | _, _, _, _ => none

/-- The two-character escapes of `json.decoder.BACKSLASH`. -/
def decodeSimpleEscape (e : Char) : Option Char :=
  if e = '"' then some '"'
  else if e = '\\' then some '\\'
  else if e = '/' then some '/'
  else if e = 'b' then some '\x08'
  else if e = 'f' then some '\x0c'
  else if e = 'n' then some '\n'
  else if e = 'r' then some '\r'
  else if e = 't' then some '\t'
  else none

/-- String-body scanner, modelling `json.decoder.py_scanstring` with
`strict=True`, starting just after the opening quote.  Returns the decoded
characters and the input remaining after the closing quote.  A high
surrogate escape followed by a low surrogate escape is combined; a lone
surrogate escape (representable in a Python `str` but not in a Lean
`Char`) decodes to U+FFFD.  Unescaped control characters are rejected, as
are invalid `\` escapes and unterminated strings.  The fuel argument only
bounds recursion; callers pass more than the input length, which every
recursion (one step per decoded character) satisfies. -/
def readStrF : Nat → List Char → Option (List Char × List Char)
  | 0, _ => none
  | _, [] => none
  | fuel + 1, c :: cs =>
    if c = '"' then some ([], cs)
    else if c = '\\' then
      match cs with
      | 'u' :: h1 :: h2 :: h3 :: h4 :: cs3 =>
        match hex4 h1 h2 h3 h4 with
        | none => none
        | some n =>
          if 0xd800 ≤ n ∧ n < 0xdc00 then
            match cs3 with
            | '\\' :: 'u' :: g1 :: g2 :: g3 :: g4 :: cs4 =>
              match hex4 g1 g2 g3 g4 with
              | some m =>
                if 0xdc00 ≤ m ∧ m < 0xe000 then
                  (readStrF fuel cs4).map (fun p =>
                    (Char.ofNat (0x10000 + (n - 0xd800) * 0x400 + (m - 0xdc00)) :: p.1, p.2))
                else
                  (readStrF fuel cs3).map (fun p => ('�' :: p.1, p.2))
              | none => (readStrF fuel cs3).map (fun p => ('�' :: p.1, p.2))
            | _ => (readStrF fuel cs3).map (fun p => ('�' :: p.1, p.2))
          else if 0xdc00 ≤ n ∧ n < 0xe000 then
            (readStrF fuel cs3).map (fun p => ('�' :: p.1, p.2))
          else
            (readStrF fuel cs3).map (fun p => (Char.ofNat n :: p.1, p.2))
      | e :: cs2 =>
        match decodeSimpleEscape e with
        | some d => (readStrF fuel cs2).map (fun p => (d :: p.1, p.2))
        | none => none
      | [] => none
    else if c.toNat < 0x20 then none
    else (readStrF fuel cs).map (fun p => (c :: p.1, p.2))

/-- `readStrF` with enough fuel for its input. -/
def readStr (s : List Char) : Option (List Char × List Char) :=
  readStrF (s.length + 1) s

/-- Integer part of a JSON number: `0` or a nonzero digit followed by
digits (the first group of `json.scanner.NUMBER_RE`). -/
def parseIntPart : List Char → Option (List Char × List Char)
  | [] => none
  | c :: cs =>
    if c = '0' then some (['0'], cs)
    else if c.isDigit then
      some (c :: cs.takeWhile Char.isDigit, cs.dropWhile Char.isDigit)
    else none

/-- Optional fraction part `.digits` of a JSON number; consumes nothing
when absent or malformed, like the optional regex group. -/
def parseFracPart (s : List Char) : List Char × List Char :=
  match s with
  | '.' :: cs =>
    match cs.takeWhile Char.isDigit with
    | [] => ([], s)
    | ds => ('.' :: ds, cs.dropWhile Char.isDigit)
  | _ => ([], s)

/-- Optional exponent part `[eE][+-]?digits` of a JSON number; consumes
nothing when absent or malformed. -/
def parseExpPart (s : List Char) : List Char × List Char :=
  match s with
  | e :: cs =>
    if e = 'e' ∨ e = 'E' then
      match cs with
      | sg :: cs2 =>
        if sg = '+' ∨ sg = '-' then
          match cs2.takeWhile Char.isDigit with
          | [] => ([], s)
          | ds => (e :: sg :: ds, cs2.dropWhile Char.isDigit)
        else
          match cs.takeWhile Char.isDigit with
          | [] => ([], s)
          | ds => (e :: ds, cs.dropWhile Char.isDigit)
      | [] => ([], s)
    else ([], s)
  | [] => ([], s)

/-- A JSON number token, per `json.scanner.NUMBER_RE`: optional minus,
integer part, optional fraction, optional exponent.  The lexeme is kept. -/
def parseNumber (s : List Char) : Option (Json × List Char) :=
  match s with
  | '-' :: cs =>
    match parseIntPart cs with
    | none => none
    | some (ip, s2) =>
      let fr := parseFracPart s2
      let ex := parseExpPart fr.2
      some (.num ('-' :: ip ++ fr.1 ++ ex.1), ex.2)
  | _ =>
    match parseIntPart s with
    | none => none
    | some (ip, s2) =>
      let fr := parseFracPart s2
      let ex := parseExpPart fr.2
      some (.num (ip ++ fr.1 ++ ex.1), ex.2)

/-- Non-recursive tokens tried by `json.scanner.py_make_scanner`: the
literals `true`, `false`, `null`, the default constants `NaN`,
`Infinity`, `-Infinity`, then a number. -/
def constOrNumber (s : List Char) : Option (Json × List Char) :=
  match s with
  | 't' :: 'r' :: 'u' :: 'e' :: r => some (.bool true, r)
  | 'f' :: 'a' :: 'l' :: 's' :: 'e' :: r => some (.bool false, r)
  | 'n' :: 'u' :: 'l' :: 'l' :: r => some (.null, r)
  | 'N' :: 'a' :: 'N' :: r => some (.num ['N', 'a', 'N'], r)
  | 'I' :: 'n' :: 'f' :: 'i' :: 'n' :: 'i' :: 't' :: 'y' :: r =>
    some (.num ['I', 'n', 'f', 'i', 'n', 'i', 't', 'y'], r)
  | '-' :: 'I' :: 'n' :: 'f' :: 'i' :: 'n' :: 'i' :: 't' :: 'y' :: r =>
    some (.num ['-', 'I', 'n', 'f', 'i', 'n', 'i', 't', 'y'], r)
  | _ => parseNumber s

mutual
/-- Recursive-descent JSON value parser, modelling CPython's
`json.scanner.py_make_scanner` / `json.decoder.JSONObject` /
`json.decoder.JSONArray`.  The fuel argument only bounds recursion and is
instantiated with more than the input length at the top level
(`json_loads`), which every reachable recursion satisfies. -/
def parseValue : Nat → List Char → Option (Json × List Char)
  | 0, _ => none
  | fuel + 1, s =>
    match skipWs s with
    | [] => none
    | c :: cs =>
      if c = '"' then
        match readStr cs with
        | some (body, rest) => some (.str body, rest)
        | none => none
      else if c = '\x7b' then
        match skipWs cs with
        | '\x7d' :: r => some (.obj .nil, r)
        | '"' :: cs2 =>
          match readStr cs2 with
          | some (k, rest) =>
            (match skipWs rest with
             | ':' :: cs3 =>
               (match parseValue fuel cs3 with
                | some (v, rest2) =>
                  (match parseMembersTail fuel rest2 with
                   | some (ms, rest3) => some (.obj (.cons k v ms), rest3)
                   | none => none)
                | none => none)
             | _ => none)
          | none => none
        | _ => none
      else if c = '[' then
        match skipWs cs with
        | ']' :: r => some (.arr .nil, r)
        | _ =>
          match parseValue fuel cs with
          | some (v, rest) =>
            (match parseElemsTail fuel rest with
             | some (vs, rest2) => some (.arr (.cons v vs), rest2)
             | none => none)
          | none => none
      else constOrNumber (c :: cs)

/-- Object continuation after one `key: value` pair: `, "key": value`
repeated, then the closing brace. -/
def parseMembersTail : Nat → List Char → Option (JsonMembers × List Char)
  | 0, _ => none
  | fuel + 1, s =>
    match skipWs s with
    | '\x7d' :: r => some (.nil, r)
    | ',' :: r =>
      (match skipWs r with
       | '"' :: cs2 =>
         (match readStr cs2 with
          | some (k, rest) =>
            (match skipWs rest with
             | ':' :: cs3 =>
               (match parseValue fuel cs3 with
                | some (v, rest2) =>
                  (match parseMembersTail fuel rest2 with
                   | some (ms, rest3) => some (.cons k v ms, rest3)
                   | none => none)
                | none => none)
             | _ => none)
          | none => none)
       | _ => none)
    | _ => none

/-- Array continuation after one element: `, value` repeated, then the
closing bracket. -/
def parseElemsTail : Nat → List Char → Option (JsonList × List Char)
  | 0, _ => none
  | fuel + 1, s =>
    match skipWs s with
    | ']' :: r => some (.nil, r)
    | ',' :: r =>
      (match parseValue fuel r with
       | some (v, rest) =>
         (match parseElemsTail fuel rest with
          | some (vs, rest2) => some (.cons v vs, rest2)
          | none => none)
       | none => none)
    | _ => none
end

/-- `json.loads`: parse one value, then require only trailing whitespace
(`raw_decode` plus the "Extra data" check in `JSONDecoder.decode`).
`none` models `json.JSONDecodeError`. -/
def json_loads (s : List Char) : Option Json :=
  match parseValue (s.length + 1) s with
  | some (v, rest) => if skipWs rest = [] then some v else none
  | none => none

/-- The `\uXXXX` escape (lowercase hex, as emitted by CPython). -/
def hexCharLower (n : Nat) : Char :=
  if n < 10 then Char.ofNat ('0'.toNat + n) else Char.ofNat ('a'.toNat + n - 10)

/-- Six-character escape `\uXXXX` of a code unit below 0x10000. -/
def uEscape (n : Nat) : List Char :=
  ['\\', 'u', hexCharLower (n / 4096 % 16), hexCharLower (n / 256 % 16),
   hexCharLower (n / 16 % 16), hexCharLower (n % 16)]

/-- Escaping of one character by `json.encoder.py_encode_basestring_ascii`
(`ensure_ascii=True`): short escapes for the `ESCAPE_DCT` specials,
printable ASCII passes through, everything else becomes `\uXXXX`, with a
surrogate pair above 0xFFFF. -/
def escapeChar (c : Char) : List Char :=
  if c = '"' then ['\\', '"']
  else if c = '\\' then ['\\', '\\']
  else if c = '\x08' then ['\\', 'b']
  else if c = '\x0c' then ['\\', 'f']
  else if c = '\n' then ['\\', 'n']
  else if c = '\r' then ['\\', 'r']
  else if c = '\t' then ['\\', 't']
  else if 0x20 ≤ c.toNat ∧ c.toNat ≤ 0x7e then [c]
  else if c.toNat < 0x10000 then uEscape c.toNat
  else uEscape (0xd800 + (c.toNat - 0x10000) / 0x400) ++
       uEscape (0xdc00 + (c.toNat - 0x10000) % 0x400)

/-- Escape a whole string body. -/
def escapeString : List Char → List Char
  | [] => []
  | c :: cs => escapeChar c ++ escapeString cs

mutual
/-- `json.dumps` with its default arguments: item separator `", "`,
key separator `": "`, `ensure_ascii=True`, no indent. -/
def dumpsVal : Json → List Char
  | .null => "null".data
  | .bool true => "true".data
  | .bool false => "false".data
  | .num lexeme => lexeme
  | .str s => '"' :: escapeString s ++ ['"']
  | .arr .nil => ['[', ']']
  | .arr (.cons v vs) => '[' :: dumpsVal v ++ dumpsElemsRest vs ++ [']']
  | .obj .nil => ['\x7b', '\x7d']
  | .obj (.cons k v ms) => '\x7b' :: dumpsMember k v ++ dumpsMembersRest ms ++ ['\x7d']

/-- One `"key": value` item. -/
def dumpsMember (k : List Char) (v : Json) : List Char :=
  '"' :: escapeString k ++ '"' :: ':' :: ' ' :: dumpsVal v

/-- Remaining array items, each preceded by `", "`. -/
def dumpsElemsRest : JsonList → List Char
  | .nil => []
  | .cons v vs => ',' :: ' ' :: dumpsVal v ++ dumpsElemsRest vs

/-- Remaining object items, each preceded by `", "`. -/
def dumpsMembersRest : JsonMembers → List Char
  | .nil => []
  | .cons k v ms => ',' :: ' ' :: dumpsMember k v ++ dumpsMembersRest ms
end

/-- Last-binding lookup in parsed object members: after `json.loads`
builds a `dict`, a duplicated key holds the value of its last
occurrence. -/
def memberLookupLast : JsonMembers → List Char → Option Json
  | .nil, _ => none
  | .cons k v tl, key =>
    match memberLookupLast tl key with
    | some r => some r
    | none => if k = key then some v else none

/-- `dict.get(key, default)` on parsed object members. -/
def dictGet (ms : JsonMembers) (key : List Char) (dflt : Json) : Json :=
  (memberLookupLast ms key).getD dflt

/-- Python falsiness of a number lexeme: `0`, `-0.00`, `0e9`, … are
falsy; `NaN`, `Infinity` and every nonzero value are truthy.  A JSON
number is zero exactly when its mantissa has no digit 1–9. -/
def numLexemeIsZero (lexeme : List Char) : Bool :=
  (lexeme.all fun c => c = '-' || c = '+' || c = '.' || c = 'e' || c = 'E' || c.isDigit) &&
  ((lexeme.takeWhile fun c => c ≠ 'e' ∧ c ≠ 'E').all fun c => !(c.isDigit && c ≠ '0'))

/-- Python truthiness test `not x` on a decoded JSON value: `None`,
`False`, `0`, empty string, empty list and empty dict are falsy. -/
def isFalsy : Json → Bool
  | .null => true
  | .bool b => !b
  | .num lexeme => numLexemeIsZero lexeme
  | .str s => s.isEmpty
  | .arr .nil => true
  | .arr (.cons _ _) => false
  | .obj .nil => true
  | .obj (.cons _ _ _) => false

/-- One event record of the wire format: the five string fields of the
mock data (src/app.py:31-58). -/
structure EventRecord where
  title : List Char
  location : List Char
  date : List Char
  time : List Char
  price : List Char
deriving DecidableEq

/-- One record as the JSON object the backend emits: exactly the keys
`Event Title`, `Location`, `Date`, `Time`, `Price`, in insertion order,
each holding a string. -/
def recToJson (r : EventRecord) : Json :=
  .obj (.cons "Event Title".data (.str r.title)
        (.cons "Location".data (.str r.location)
         (.cons "Date".data (.str r.date)
          (.cons "Time".data (.str r.time)
           (.cons "Price".data (.str r.price) .nil)))))

/-- A list of records as a JSON array. -/
def eventsToJsonList : List EventRecord → JsonList
  | [] => .nil
  | r :: rs => .cons (recToJson r) (eventsToJsonList rs)

/-- An `EventCollection` in the wire shape: an object whose single
`events` key holds the array of records. -/
def collectionToJson (ec : List EventRecord) : Json :=
  .obj (.cons "events".data (.arr (eventsToJsonList ec)) .nil)

/-- Decode one record object back from JSON: exactly the five expected
keys in order, each with a string value. -/
def jsonToRec (j : Json) : Option EventRecord :=
  match j with
  | .obj (.cons k1 (.str t)
          (.cons k2 (.str l)
           (.cons k3 (.str d)
            (.cons k4 (.str ti)
             (.cons k5 (.str p) .nil))))) =>
    if k1 = "Event Title".data ∧ k2 = "Location".data ∧ k3 = "Date".data ∧
       k4 = "Time".data ∧ k5 = "Price".data then
      some ⟨t, l, d, ti, p⟩
    else none
  | _ => none

/-- Decode a JSON array of record objects. -/
def jsonListToRecs : JsonList → Option (List EventRecord)
  | .nil => some []
  | .cons j tl =>
    match jsonToRec j, jsonListToRecs tl with
    | some r, some rs => some (r :: rs)
    | _, _ => none

/-- Decode a whole parse result back into an `EventCollection`, reading
the `events` key the way the handler does (absent key defaults to the
empty array). -/
def parseCollection (o : Option Json) : Option (List EventRecord) :=
  match o with
  | some (.obj ms) =>
    (match dictGet ms "events".data (.arr .nil) with
     | .arr l => jsonListToRecs l
     | _ => none)
  | _ => none

/-- The four hardcoded mock records of `mock_events_json`
(src/app.py:29-60), in source order. -/
def mockEvents : List EventRecord :=
  [⟨"Cutting-Edge Biotech Innovations".data, "San Francisco, CA".data,
    "October 15, 2025".data, "9:00 AM - 5:00 PM".data, "Free".data⟩,
   ⟨"Future of Agriculture Tech Summit".data, "Virtual Event".data,
    "November 2, 2025".data, "10:00 AM - 2:00 PM (CST)".data, "$99.00".data⟩,
   ⟨"Local Tech Meetup & Networking".data, "New York, NY".data,
    "September 20, 2025".data, "7:00 PM - 9:00 PM".data, "Free".data⟩,
   ⟨"Next-Gen Tech Solutions Expo".data, "Austin, TX".data,
    "December 5-6, 2025".data, "9:00 AM - 6:00 PM".data, "$150.00 - $300.00".data⟩]

/-- The `mock_events_json` dict literal (src/app.py:29-60). -/
def mock_events_json : Json := collectionToJson mockEvents

/-- The module-level `GEMINI_PROMPT` string (src/app.py:7-9); treated as
an opaque constant by the processor. -/
def GEMINI_PROMPT : List Char :=
  "\nYou are a web scraping agent designed to extract structured information from Eventbrite.com. When given a search query, you will navigate the Eventbrite website and perform a search. For each event that matches the keywords 'biotech', 'agriculture tech', or 'tech', extract the following details: Event Title, Location, Date, Time, and Price. If the price is free, note it as such. After collecting the data for all relevant events, format the output as a JSON object, where each event is an element in a JSON array. If the webpage does not contain any of the specified keywords, return an empty JSON array.\n".data

/-- `simulate_gemini_api_call` (src/app.py:11-61): ignores both inputs
(apart from echoing them to the UI) and returns `json.dumps` of the mock
object. -/
def simulate_gemini_api_call (_user_query _prompt : List Char) : List Char :=
  dumpsVal mock_events_json

/-- The user-visible terminal state of one click, with the UI call that
produces it. -/
inductive Outcome where
  /-- `st.warning` for an empty query (src/app.py:75). -/
  | warning : Outcome
  /-- `st.info` when the decoded `events` value is falsy (src/app.py:90);
  carries the query echoed in the message. -/
  | noEvents (query : List Char) : Outcome
  /-- `st.success` plus `st.dataframe` on the decoded `events` value
  (src/app.py:92-94). -/
  | eventsFound (rows : Json) : Outcome
  /-- `st.error` from the `json.JSONDecodeError` handler (src/app.py:97). -/
  | parseFailed : Outcome
  /-- An exception not caught by the handler: `events_data.get` on a
  non-dict raises `AttributeError`, which the `except json.JSONDecodeError`
  clause does not catch. -/
  | unhandledFault : Outcome

/-- The message each terminal state displays; the unhandled fault has
none (the exception escapes the script). -/
def outcomeMessage : Outcome → Option (List Char)
  | .warning => some "Please enter a search query.".data
  | .noEvents q =>
    some ("No events found for '".data ++ q ++ "' with the specified keywords.".data)
  | .eventsFound _ => some "Events found!".data
  | .parseFailed => some "Failed to parse the response from the AI agent.".data
  | .unhandledFault => none

/-- The `try`/`except` block of the handler (src/app.py:84-97), as a
function of the query and the backend response string. -/
def handleResponse (query response : List Char) : Outcome :=
  match json_loads response with
  | none => .parseFailed
  | some j =>
    match j with
    | .obj ms =>
      let events_list := dictGet ms "events".data (.arr .nil)
      if isFalsy events_list then .noEvents query else .eventsFound events_list
    | _ => .unhandledFault

/-- Observable result of one "Search Events" click: the terminal state,
how many times the processor (`simulate_gemini_api_call`) ran, and how
many warnings were emitted. -/
structure ClickResult where
  outcome : Outcome
  processorCalls : Nat
  warnings : Nat

/-- The "Search Events" click handler (src/app.py:73-97): an empty input
is rejected with one warning and no processor call; otherwise the stub is
called once and its response handled. -/
def searchEventsClick (user_input : List Char) : ClickResult :=
  if user_input = [] then ⟨.warning, 0, 1⟩
  else ⟨handleResponse user_input (simulate_gemini_api_call user_input GEMINI_PROMPT), 1, 0⟩

/-! ### Basic facts about characters and escaping -/

/-- Valid scalar values: below the surrogate block or above it and below
0x110000. -/
theorem char_toNat_valid (c : Char) :
    c.toNat < 0xd800 ∨ (0xdfff < c.toNat ∧ c.toNat < 0x110000) := by
  rcases c.valid with h | h
  · left
    exact h
  · right
    exact h

/-- Hex digits encode and decode. -/
theorem hexVal_hexCharLower : ∀ d, d < 16 → hexVal (hexCharLower d) = some d := by
  decide

/-- A four-digit escape body built from a code unit decodes to it. -/
theorem hex4_of_uEscape (v : Nat) (hv : v < 0x10000) :
    hex4 (hexCharLower (v / 4096 % 16)) (hexCharLower (v / 256 % 16))
      (hexCharLower (v / 16 % 16)) (hexCharLower (v % 16)) = some v := by
  have h1 := hexVal_hexCharLower (v / 4096 % 16) (by omega)
  have h2 := hexVal_hexCharLower (v / 256 % 16) (by omega)
  have h3 := hexVal_hexCharLower (v / 16 % 16) (by omega)
  have h4 := hexVal_hexCharLower (v % 16) (by omega)
  simp [hex4, h1, h2, h3, h4]
  omega

/-- Reading a high-surrogate escape followed by a low-surrogate escape
combines the pair. -/
theorem readStrF_uEscapePair (n m : Nat) (d1 d2 d3 d4 e1 e2 e3 e4 : Char)
    (hd : hex4 d1 d2 d3 d4 = some n) (he : hex4 e1 e2 e3 e4 = some m)
    (hn : 0xd800 ≤ n ∧ n < 0xdc00) (hm : 0xdc00 ≤ m ∧ m < 0xe000)
    (fuel : Nat) (t out rest : List Char) (h : readStrF fuel t = some (out, rest)) :
    readStrF (fuel + 1)
      ('\\' :: 'u' :: d1 :: d2 :: d3 :: d4 :: '\\' :: 'u' :: e1 :: e2 :: e3 :: e4 :: t) =
      some (Char.ofNat (0x10000 + (n - 0xd800) * 0x400 + (m - 0xdc00)) :: out, rest) := by
  simp [readStrF, hd, he, hn, hm, h]

/-- Decoding one escaped character: if the scanner accepts the tail, it
accepts the escape of `c` prepended, producing `c`. -/
theorem readStrF_escapeChar (c : Char) (fuel : Nat) (t out rest : List Char)
    (h : readStrF fuel t = some (out, rest)) :
    readStrF (fuel + 1) (escapeChar c ++ t) = some (c :: out, rest) := by
  have hv := char_toNat_valid c
  by_cases h1 : c = '"'
  · subst h1
    simp [escapeChar, readStrF, decodeSimpleEscape, h]
  by_cases h2 : c = '\\'
  · subst h2
    simp [escapeChar, readStrF, decodeSimpleEscape, h]
  by_cases h3 : c = '\x08'
  · subst h3
    simp [escapeChar, readStrF, decodeSimpleEscape, h]
  by_cases h4 : c = '\x0c'
  · subst h4
    simp [escapeChar, readStrF, decodeSimpleEscape, h]
  by_cases h5 : c = '\n'
  · subst h5
    simp [escapeChar, readStrF, decodeSimpleEscape, h]
  by_cases h6 : c = '\r'
  · subst h6
    simp [escapeChar, readStrF, decodeSimpleEscape, h]
  by_cases h7 : c = '\t'
  · subst h7
    simp [escapeChar, readStrF, decodeSimpleEscape, h]
  by_cases h8 : 0x20 ≤ c.toNat ∧ c.toNat ≤ 0x7e
  · have hq : ¬ c.toNat < 0x20 := by omega
    simp [escapeChar, h1, h2, h3, h4, h5, h6, h7, h8, readStrF, hq, h]
  by_cases h9 : c.toNat < 0x10000
  · have hue := hex4_of_uEscape c.toNat h9
    have hhi : ¬ (0xd800 ≤ c.toNat ∧ c.toNat < 0xdc00) := by omega
    have hlo : ¬ (0xdc00 ≤ c.toNat ∧ c.toNat < 0xe000) := by omega
    simp [escapeChar, h1, h2, h3, h4, h5, h6, h7, h8, h9, uEscape, readStrF, hue, hhi, hlo, h,
      Char.ofNat_toNat]
  · have hesc : escapeChar c ++ t =
        '\\' :: 'u' :: hexCharLower ((0xd800 + (c.toNat - 0x10000) / 0x400) / 4096 % 16)
          :: hexCharLower ((0xd800 + (c.toNat - 0x10000) / 0x400) / 256 % 16)
          :: hexCharLower ((0xd800 + (c.toNat - 0x10000) / 0x400) / 16 % 16)
          :: hexCharLower ((0xd800 + (c.toNat - 0x10000) / 0x400) % 16)
          :: '\\' :: 'u' :: hexCharLower ((0xdc00 + (c.toNat - 0x10000) % 0x400) / 4096 % 16)
          :: hexCharLower ((0xdc00 + (c.toNat - 0x10000) % 0x400) / 256 % 16)
          :: hexCharLower ((0xdc00 + (c.toNat - 0x10000) % 0x400) / 16 % 16)
          :: hexCharLower ((0xdc00 + (c.toNat - 0x10000) % 0x400) % 16) :: t := by
      simp [escapeChar, h1, h2, h3, h4, h5, h6, h7, h8, h9, uEscape]
    rw [hesc, readStrF_uEscapePair (0xd800 + (c.toNat - 0x10000) / 0x400)
        (0xdc00 + (c.toNat - 0x10000) % 0x400) _ _ _ _ _ _ _ _
        (hex4_of_uEscape _ (by omega)) (hex4_of_uEscape _ (by omega))
        (by omega) (by omega) fuel t out rest h]
    rw [show 0x10000 + (0xd800 + (c.toNat - 0x10000) / 0x400 - 0xd800) * 0x400 +
        (0xdc00 + (c.toNat - 0x10000) % 0x400 - 0xdc00) = c.toNat from by omega,
      Char.ofNat_toNat]

/-- Every character escapes to at least one character. -/
theorem escapeChar_length_pos (c : Char) : 1 ≤ (escapeChar c).length := by
  unfold escapeChar
  split_ifs <;> simp [uEscape]

/-- Escaping does not shorten a string. -/
theorem escapeString_length : ∀ s : List Char, s.length ≤ (escapeString s).length := by
  intro s
  induction s with
  | nil => simp [escapeString]
  | cons c cs ih =>
    have := escapeChar_length_pos c
    simp only [escapeString, List.length_append, List.length_cons]
    omega

/-- The scanner decodes an escaped string body back to the original,
for any surplus fuel. -/
theorem readStrF_escapeString (s : List Char) :
    ∀ extra rest, readStrF (s.length + extra + 1) (escapeString s ++ '"' :: rest) =
      some (s, rest) := by
  induction s with
  | nil =>
    intro extra rest
    simp [escapeString, readStrF]
  | cons c cs ih =>
    intro extra rest
    have step := readStrF_escapeChar c (cs.length + extra + 1)
      (escapeString cs ++ '"' :: rest) cs rest (ih extra rest)
    rw [show (c :: cs).length + extra + 1 = (cs.length + extra + 1) + 1 from by
      simp only [List.length_cons]; omega]
    simpa [escapeString, List.append_assoc] using step

/-- `readStr` (the scanner with its caller-supplied fuel) decodes an
escaped string body back to the original. -/
theorem readStr_escapeString (s rest : List Char) :
    readStr (escapeString s ++ '"' :: rest) = some (s, rest) := by
  have hlen := escapeString_length s
  rw [readStr, show (escapeString s ++ '"' :: rest).length + 1 =
    s.length + ((escapeString s).length - s.length + rest.length + 1) + 1 from by
      simp only [List.length_append, List.length_cons]; omega]
  exact readStrF_escapeString s _ rest

/-! ### Parsing back what `dumpsVal` emits -/

/-- `skipWs` keeps a non-whitespace head. -/
theorem skipWs_cons_of_not_ws {c : Char} (t : List Char) (h : isJsonWs c = false) :
    skipWs (c :: t) = c :: t := by
  simp [skipWs, h]

/-- The parser ignores one leading space. -/
theorem parseValue_drop_space (fuel : Nat) (t : List Char) :
    parseValue (fuel + 1) (' ' :: t) = parseValue (fuel + 1) t := by
  conv_lhs => rw [parseValue]
  conv_rhs => rw [parseValue]
  simp [skipWs, isJsonWs]

/-- A serialized string value parses back, with one fuel step. -/
theorem parseValue_str (fuel : Nat) (sv rest : List Char) :
    parseValue (fuel + 1) ('"' :: (escapeString sv ++ '"' :: rest)) =
      some (.str sv, rest) := by
  rw [parseValue]
  simp [skipWs, isJsonWs, readStr_escapeString]

/-- After one parsed member, the remaining serialized members of an
all-string object parse back, with one fuel step per member. -/
theorem parseMembersTail_allStr :
    ∀ ms : JsonMembers, membersAllStr ms = true →
    ∀ (fuel : Nat) (rest : List Char),
      parseMembersTail (ms.length + fuel + 1) (dumpsMembersRest ms ++ '\x7d' :: rest) =
        some (ms, rest)
  | .nil, _, fuel, rest => by
    rw [show JsonMembers.nil.length + fuel + 1 = fuel + 1 from by
      simp [JsonMembers.length]]
    rw [parseMembersTail]
    simp [dumpsMembersRest, skipWs, isJsonWs]
  | .cons k v tl, hall, fuel, rest => by
    have hv : ∃ sv, v = Json.str sv := by
      cases v <;> simp [membersAllStr] at hall ⊢
    obtain ⟨sv, rfl⟩ := hv
    have htl : membersAllStr tl = true := by
      simp [membersAllStr] at hall
      exact hall
    have ih := parseMembersTail_allStr tl htl fuel rest
    rw [show (JsonMembers.cons k (Json.str sv) tl).length + fuel + 1 =
      (tl.length + fuel + 1) + 1 from by simp [JsonMembers.length]; omega]
    rw [parseMembersTail]
    simp [dumpsMembersRest, dumpsMember, dumpsVal, skipWs, isJsonWs,
      List.append_assoc, readStr_escapeString, parseValue_drop_space, parseValue_str,
      ih]

/-- A serialized object whose values are all strings parses back. -/
theorem parseValue_obj_allStr (ms : JsonMembers) (hall : membersAllStr ms = true)
    (fuel : Nat) (rest : List Char) :
    parseValue (ms.length + fuel + 2) (dumpsVal (.obj ms) ++ rest) =
      some (.obj ms, rest) := by
  cases ms with
  | nil =>
    rw [show JsonMembers.nil.length + fuel + 2 = (fuel + 1) + 1 from by
      simp [JsonMembers.length]]
    rw [parseValue]
    simp [dumpsVal, skipWs, isJsonWs]
  | cons k v tl =>
    have hv : ∃ sv, v = Json.str sv := by
      cases v <;> simp [membersAllStr] at hall ⊢
    obtain ⟨sv, rfl⟩ := hv
    have htl : membersAllStr tl = true := by
      simp [membersAllStr] at hall
      exact hall
    have ih := parseMembersTail_allStr tl htl (fuel + 1) rest
    rw [show (JsonMembers.cons k (Json.str sv) tl).length + fuel + 2 =
      (tl.length + (fuel + 1) + 1) + 1 from by simp [JsonMembers.length]; omega]
    rw [parseValue]
    simp [dumpsVal, dumpsMember, dumpsMembersRest, skipWs, isJsonWs,
      List.append_assoc, readStr_escapeString, parseValue_drop_space, parseValue_str,
      ih]

/-- A serialized event record parses back with seven fuel steps to
spare. -/
theorem parseValue_recToJson (r : EventRecord) (fuel : Nat) (rest : List Char) :
    parseValue (fuel + 7) (dumpsVal (recToJson r) ++ rest) = some (recToJson r, rest) := by
  have h := parseValue_obj_allStr
    (.cons "Event Title".data (.str r.title)
      (.cons "Location".data (.str r.location)
       (.cons "Date".data (.str r.date)
        (.cons "Time".data (.str r.time)
         (.cons "Price".data (.str r.price) .nil)))))
    (by simp [membersAllStr]) fuel rest
  rw [show (JsonMembers.cons "Event Title".data (Json.str r.title)
      (.cons "Location".data (.str r.location)
       (.cons "Date".data (.str r.date)
        (.cons "Time".data (.str r.time)
         (.cons "Price".data (.str r.price) .nil))))).length + fuel + 2 = fuel + 7 from by
    simp [JsonMembers.length]; omega] at h
  simpa [recToJson] using h

/-- The serialized remaining records of an array of event records parse
back, with eight fuel steps per record. -/
theorem parseElemsTail_events :
    ∀ (ec : List EventRecord) (fuel : Nat) (rest : List Char),
      parseElemsTail (8 * ec.length + fuel + 1)
        (dumpsElemsRest (eventsToJsonList ec) ++ ']' :: rest) =
        some (eventsToJsonList ec, rest)
  | [], fuel, rest => by
    rw [show 8 * ([] : List EventRecord).length + fuel + 1 = fuel + 1 from by simp]
    rw [parseElemsTail]
    simp [eventsToJsonList, dumpsElemsRest, skipWs, isJsonWs]
  | r :: rs, fuel, rest => by
    have ih := parseElemsTail_events rs (fuel + 7) rest
    rw [show 8 * rs.length + (fuel + 7) + 1 = 8 * rs.length + fuel + 8 from by omega] at ih
    have hrec := parseValue_recToJson r (8 * rs.length + fuel + 1)
      (dumpsElemsRest (eventsToJsonList rs) ++ ']' :: rest)
    rw [show 8 * rs.length + fuel + 1 + 7 = 8 * rs.length + fuel + 8 from by omega] at hrec
    rw [show 8 * (r :: rs).length + fuel + 1 = (8 * rs.length + fuel + 8) + 1 from by
      simp [List.length_cons]; omega]
    rw [parseElemsTail]
    simp [eventsToJsonList, dumpsElemsRest, skipWs, isJsonWs, List.append_assoc,
      parseValue_drop_space, hrec, ih]

/-- Shape of a dumped nonempty object. -/
theorem dumpsVal_obj_cons (k : List Char) (v : Json) (ms : JsonMembers) :
    dumpsVal (.obj (.cons k v ms)) =
      '\x7b' :: (dumpsMember k v ++ (dumpsMembersRest ms ++ ['\x7d'])) := by
  rw [dumpsVal]
  simp [List.append_assoc]

/-- Shape of a dumped nonempty array. -/
theorem dumpsVal_arr_cons (v : Json) (vs : JsonList) :
    dumpsVal (.arr (.cons v vs)) =
      '[' :: (dumpsVal v ++ (dumpsElemsRest vs ++ [']'])) := by
  rw [dumpsVal]
  simp [List.append_assoc]

/-- A closing brace ends the member list. -/
theorem parseMembersTail_close (fuel : Nat) (rest : List Char) :
    parseMembersTail (fuel + 1) ('\x7d' :: rest) = some (.nil, rest) := by
  rw [parseMembersTail]
  simp [skipWs, isJsonWs]

/-- A serialized array of event records parses back, with eight fuel
steps per record and two to spare. -/
theorem parseValue_events_arr :
    ∀ (ec : List EventRecord) (fuel : Nat) (rest : List Char),
      parseValue (8 * ec.length + fuel + 2)
        (dumpsVal (.arr (eventsToJsonList ec)) ++ rest) =
        some (.arr (eventsToJsonList ec), rest)
  | [], fuel, rest => by
    rw [show 8 * ([] : List EventRecord).length + fuel + 2 = (fuel + 1) + 1 from by simp]
    rw [parseValue]
    simp [eventsToJsonList, dumpsVal, skipWs, isJsonWs]
  | r :: rs, fuel, rest => by
    have ih := parseElemsTail_events rs (fuel + 8) rest
    rw [show 8 * rs.length + (fuel + 8) + 1 = 8 * rs.length + fuel + 9 from by omega] at ih
    have hrec := parseValue_recToJson r (8 * rs.length + fuel + 2)
      (dumpsElemsRest (eventsToJsonList rs) ++ ']' :: rest)
    rw [show 8 * rs.length + fuel + 2 + 7 = 8 * rs.length + fuel + 9 from by omega] at hrec
    rw [show 8 * (r :: rs).length + fuel + 2 = (8 * rs.length + fuel + 9) + 1 from by
      simp [List.length_cons]; omega]
    rw [show eventsToJsonList (r :: rs) =
      JsonList.cons (recToJson r) (eventsToJsonList rs) from rfl]
    rw [dumpsVal_arr_cons]
    rw [recToJson] at hrec ⊢
    rw [dumpsVal_obj_cons] at hrec ⊢
    rw [parseValue]
    simp only [List.cons_append, List.append_assoc, List.nil_append,
      List.append_nil] at hrec ⊢
    simp [skipWs, isJsonWs, hrec, ih]

/-- The serialized wire document of an event collection parses back. -/
theorem parseValue_collection (ec : List EventRecord) (fuel : Nat) (rest : List Char) :
    parseValue (8 * ec.length + fuel + 5) (dumpsVal (collectionToJson ec) ++ rest) =
      some (collectionToJson ec, rest) := by
  have harr := parseValue_events_arr ec (fuel + 2) ('\x7d' :: rest)
  rw [show 8 * ec.length + (fuel + 2) + 2 = 8 * ec.length + fuel + 4 from by omega] at harr
  rw [show 8 * ec.length + fuel + 5 = (8 * ec.length + fuel + 4) + 1 from by omega]
  rw [show collectionToJson ec =
    Json.obj (.cons "events".data (.arr (eventsToJsonList ec)) .nil) from rfl]
  rw [dumpsVal_obj_cons]
  rw [parseValue]
  simp [dumpsMember, dumpsMembersRest, skipWs, isJsonWs, List.append_assoc,
    readStr_escapeString, parseValue_drop_space, harr, parseMembersTail_close]

/-- A dumped record is at least its eight punctuation characters long. -/
theorem dumpsVal_recToJson_length (r : EventRecord) :
    8 ≤ (dumpsVal (recToJson r)).length := by
  rw [recToJson, dumpsVal_obj_cons]
  simp only [dumpsMember, dumpsVal, List.length_cons, List.length_append]
  omega

/-- Each dumped record contributes at least eight characters to the
element list. -/
theorem dumpsElemsRest_events_length :
    ∀ ec : List EventRecord,
      8 * ec.length ≤ (dumpsElemsRest (eventsToJsonList ec)).length
  | [] => by simp [eventsToJsonList, dumpsElemsRest]
  | r :: rs => by
    have ih := dumpsElemsRest_events_length rs
    have hr := dumpsVal_recToJson_length r
    rw [show eventsToJsonList (r :: rs) =
      JsonList.cons (recToJson r) (eventsToJsonList rs) from rfl, dumpsElemsRest]
    simp only [List.length_cons, List.length_append, List.length_cons]
    simp only [List.length_cons] at hr
    omega

/-- Length bound for a dumped array of records. -/
theorem dumpsVal_events_arr_length (ec : List EventRecord) :
    8 * ec.length + 2 ≤ (dumpsVal (.arr (eventsToJsonList ec))).length := by
  cases ec with
  | nil => simp [eventsToJsonList, dumpsVal]
  | cons r rs =>
    have ih := dumpsElemsRest_events_length rs
    have hr := dumpsVal_recToJson_length r
    rw [show eventsToJsonList (r :: rs) =
      JsonList.cons (recToJson r) (eventsToJsonList rs) from rfl, dumpsVal_arr_cons]
    simp only [List.length_cons, List.length_append]
    omega

/-- Length bound for the dumped wire document: enough input characters to
cover the fuel the round-trip lemma needs. -/
theorem dumpsVal_collection_length (ec : List EventRecord) :
    8 * ec.length + 4 ≤ (dumpsVal (collectionToJson ec)).length := by
  have harr := dumpsVal_events_arr_length ec
  rw [show collectionToJson ec =
    Json.obj (.cons "events".data (.arr (eventsToJsonList ec)) .nil) from rfl,
    dumpsVal_obj_cons]
  simp only [dumpsMember, dumpsMembersRest, List.length_cons, List.length_append,
    List.nil_append]
  omega

/-- `json.loads` inverts `json.dumps` on every wire document the program
can serialize. -/
theorem json_loads_dumps_collection (ec : List EventRecord) :
    json_loads (dumpsVal (collectionToJson ec)) = some (collectionToJson ec) := by
  have hlen := dumpsVal_collection_length ec
  have h := parseValue_collection ec
    ((dumpsVal (collectionToJson ec)).length - (8 * ec.length + 4)) []
  rw [List.append_nil] at h
  rw [json_loads]
  rw [show (dumpsVal (collectionToJson ec)).length + 1 =
    8 * ec.length + ((dumpsVal (collectionToJson ec)).length - (8 * ec.length + 4)) + 5 from
    by omega]
  rw [h]
  simp [skipWs]

/-! ### Decoding the wire shape back to records -/

/-- Decoding inverts encoding on one record. -/
theorem jsonToRec_recToJson (r : EventRecord) : jsonToRec (recToJson r) = some r := by
  cases r
  simp [jsonToRec, recToJson]

/-- Decoding inverts encoding on a record list. -/
theorem jsonListToRecs_events :
    ∀ ec : List EventRecord, jsonListToRecs (eventsToJsonList ec) = some ec
  | [] => by simp [eventsToJsonList, jsonListToRecs]
  | r :: rs => by
    have ih := jsonListToRecs_events rs
    simp [eventsToJsonList, jsonListToRecs, jsonToRec_recToJson, ih]

/-- Decoding inverts encoding on a whole wire document. -/
theorem parseCollection_collectionToJson (ec : List EventRecord) :
    parseCollection (some (collectionToJson ec)) = some ec := by
  simp [parseCollection, collectionToJson, dictGet, memberLookupLast,
    jsonListToRecs_events]

/-- The stub's response string is the dump of the mock wire document. -/
theorem simulate_eq_dumps (q p : List Char) :
    simulate_gemini_api_call q p = dumpsVal (collectionToJson mockEvents) := rfl

/-- Parsing the stub's response yields the mock document. -/
theorem json_loads_simulate (q p : List Char) :
    json_loads (simulate_gemini_api_call q p) = some (collectionToJson mockEvents) := by
  rw [simulate_eq_dumps, json_loads_dumps_collection]

/-- What the handler does with the stub's response: four rows found. -/
theorem handleResponse_simulate (q q' p : List Char) :
    handleResponse q (simulate_gemini_api_call q' p) =
      .eventsFound (.arr (eventsToJsonList mockEvents)) := by
  rw [handleResponse, json_loads_simulate]
  simp [collectionToJson, dictGet, memberLookupLast, isFalsy, mockEvents,
    eventsToJsonList]

/-! ### Claim theorems -/

/-- C1, counterexample: the response `null` is valid JSON without an
`events` key, yet the handler neither reports the malformed-response
error nor renders an empty collection — `events_data.get` on `None`
raises an `AttributeError` that the `except json.JSONDecodeError` clause
does not catch. -/
theorem c1_counterexample :
    json_loads "null".data = some Json.null ∧
    handleResponse "x".data "null".data = Outcome.unhandledFault ∧
    ¬ (handleResponse "x".data "null".data = Outcome.parseFailed ∨
       handleResponse "x".data "null".data = Outcome.noEvents "x".data) := by
  refine ⟨rfl, rfl, ?_⟩
  rintro (h | h) <;> exact Outcome.noConfusion h

/-- C1, amended: for every response string that is not valid JSON, or
parses to a JSON object without an `events` key, processing yields the
malformed-response error outcome or the empty-collection outcome;
responses parsing to non-object JSON instead escape as an unhandled
fault. -/
theorem c1_amended_malformed (q s : List Char)
    (h : json_loads s = none ∨
      ∃ ms, json_loads s = some (.obj ms) ∧
        memberLookupLast ms "events".data = none) :
    handleResponse q s = Outcome.parseFailed ∨
      handleResponse q s = Outcome.noEvents q := by
  rcases h with h | ⟨ms, hm, hl⟩
  · left
    simp [handleResponse, h]
  · right
    simp [handleResponse, hm, dictGet, hl, isFalsy]

/-- C1, witness: the empty-object response exercises the amended claim. -/
theorem c1_amended_witness :
    handleResponse "x".data "\x7b\x7d".data = Outcome.parseFailed ∨
      handleResponse "x".data "\x7b\x7d".data = Outcome.noEvents "x".data :=
  c1_amended_malformed "x".data "\x7b\x7d".data (Or.inr ⟨.nil, rfl, rfl⟩)

/-- C2: the stub backend returns the same constant response for every
query and instruction, that response decodes to the fixed four-record
mock collection, so repeated invocations with any queries and
instructions yield identical output. -/
theorem c2_stub_constant (q i q2 i2 : List Char) :
    simulate_gemini_api_call q i = simulate_gemini_api_call q2 i2 ∧
    parseCollection (json_loads (simulate_gemini_api_call q i)) = some mockEvents ∧
    mockEvents.length = 4 := by
  refine ⟨rfl, ?_, rfl⟩
  rw [json_loads_simulate, parseCollection_collectionToJson]

/-- C3: for every non-empty query the click terminates in a valid
rendered collection (the stub's four records) and never in the unhandled
fault. -/
theorem c3_process_total (q : List Char) (h : q ≠ []) :
    (searchEventsClick q).outcome =
      Outcome.eventsFound (.arr (eventsToJsonList mockEvents)) ∧
    (searchEventsClick q).outcome ≠ Outcome.unhandledFault := by
  rw [searchEventsClick, if_neg h]
  refine ⟨handleResponse_simulate q q GEMINI_PROMPT, ?_⟩
  rw [show ((⟨handleResponse q (simulate_gemini_api_call q GEMINI_PROMPT), 1, 0⟩ :
    ClickResult)).outcome = handleResponse q (simulate_gemini_api_call q GEMINI_PROMPT)
    from rfl, handleResponse_simulate q q GEMINI_PROMPT]
  exact fun hx => Outcome.noConfusion hx

/-- C3, witness: the query `x` is non-empty and ends found. -/
theorem c3_witness :
    (searchEventsClick "x".data).outcome =
      Outcome.eventsFound (.arr (eventsToJsonList mockEvents)) ∧
    (searchEventsClick "x".data).outcome ≠ Outcome.unhandledFault :=
  c3_process_total "x".data (by decide)

/-- C4, counterexample: the response `[]` parses, so the parse-failure
message is not shown, but the invocation ends in none of the three
user-visible states — it escapes as an unhandled fault. -/
theorem c4_counterexample :
    json_loads "[]".data = some (Json.arr .nil) ∧
    handleResponse "x".data "[]".data = Outcome.unhandledFault ∧
    ¬ (handleResponse "x".data "[]".data = Outcome.noEvents "x".data ∨
       (∃ rows, handleResponse "x".data "[]".data = Outcome.eventsFound rows) ∨
       handleResponse "x".data "[]".data = Outcome.parseFailed) := by
  refine ⟨rfl, rfl, ?_⟩
  rintro (h | ⟨rows, h⟩ | h) <;> exact Outcome.noConfusion h

/-- C4, amended: every invocation whose response fails to parse, or
parses to a JSON object whose `events` key is absent or holds an array
of event records (a collection), ends in exactly one of the three
user-visible states, determined by the parsed response: an empty or
absent collection yields the no-events message, a non-empty record
collection yields "Events found!" with the records as rows, and a parse
failure yields the parse-error message.  Responses parsing to non-object
JSON instead escape as an unhandled fault (the counterexample). -/
theorem c4_amended_three_states (q s : List Char)
    (h : json_loads s = none ∨
      ∃ ms, json_loads s = some (.obj ms) ∧
        (memberLookupLast ms "events".data = none ∨
         ∃ ec : List EventRecord,
           memberLookupLast ms "events".data = some (.arr (eventsToJsonList ec)))) :
    (handleResponse q s = Outcome.parseFailed ∧ json_loads s = none ∧
      outcomeMessage (handleResponse q s) =
        some "Failed to parse the response from the AI agent.".data) ∨
    (handleResponse q s = Outcome.noEvents q ∧
      outcomeMessage (handleResponse q s) =
        some ("No events found for '".data ++ q ++
          "' with the specified keywords.".data)) ∨
    (∃ ec : List EventRecord, ec ≠ [] ∧
      handleResponse q s = Outcome.eventsFound (.arr (eventsToJsonList ec)) ∧
      outcomeMessage (handleResponse q s) = some "Events found!".data) := by
  rcases h with h | ⟨ms, hm, hnone | ⟨ec, hsome⟩⟩
  · left
    simp [handleResponse, h, outcomeMessage]
  · right
    left
    simp [handleResponse, hm, dictGet, hnone, isFalsy, outcomeMessage]
  · cases ec with
    | nil =>
      right
      left
      simp [handleResponse, hm, dictGet, hsome, isFalsy, eventsToJsonList,
        outcomeMessage]
    | cons r rs =>
      right
      right
      refine ⟨r :: rs, by simp, ?_, ?_⟩ <;>
        simp [handleResponse, hm, dictGet, hsome, isFalsy, eventsToJsonList,
          outcomeMessage]

/-- C4, witness: the empty-object response (absent `events` key) lands in
the no-events state. -/
theorem c4_amended_witness :
    (handleResponse "x".data "\x7b\x7d".data = Outcome.parseFailed ∧
      json_loads "\x7b\x7d".data = none ∧
      outcomeMessage (handleResponse "x".data "\x7b\x7d".data) =
        some "Failed to parse the response from the AI agent.".data) ∨
    (handleResponse "x".data "\x7b\x7d".data = Outcome.noEvents "x".data ∧
      outcomeMessage (handleResponse "x".data "\x7b\x7d".data) =
        some ("No events found for '".data ++ "x".data ++
          "' with the specified keywords.".data)) ∨
    (∃ ec : List EventRecord, ec ≠ [] ∧
      handleResponse "x".data "\x7b\x7d".data =
        Outcome.eventsFound (.arr (eventsToJsonList ec)) ∧
      outcomeMessage (handleResponse "x".data "\x7b\x7d".data) =
        some "Events found!".data) :=
  c4_amended_three_states "x".data "\x7b\x7d".data (Or.inr ⟨.nil, rfl, Or.inl rfl⟩)

/-- C5: a response parsing to a JSON object without an `events` key
yields the empty collection outcome, identical to the outcome for a
response whose `events` array is explicitly empty; a missing key is
never a distinct error. -/
theorem c5_missing_key_is_empty (q s : List Char) (ms : JsonMembers)
    (hm : json_loads s = some (.obj ms))
    (hl : memberLookupLast ms "events".data = none) :
    handleResponse q s = Outcome.noEvents q ∧
    handleResponse q s = handleResponse q "\x7b\"events\": []\x7d".data := by
  have h1 : handleResponse q s = Outcome.noEvents q := by
    simp [handleResponse, hm, dictGet, hl, isFalsy]
  have h2 : handleResponse q "\x7b\"events\": []\x7d".data = Outcome.noEvents q := rfl
  exact ⟨h1, h1.trans h2.symm⟩

/-- C5, witness: the empty-object response. -/
theorem c5_witness :
    handleResponse "x".data "\x7b\x7d".data = Outcome.noEvents "x".data ∧
    handleResponse "x".data "\x7b\x7d".data =
      handleResponse "x".data "\x7b\"events\": []\x7d".data :=
  c5_missing_key_is_empty "x".data "\x7b\x7d".data .nil rfl rfl

/-- C6: serializing any event collection to the wire JSON document and
parsing that document back yields the same collection, field for field
and in the same order. -/
theorem c6_roundtrip (ec : List EventRecord) :
    parseCollection (json_loads (dumpsVal (collectionToJson ec))) = some ec := by
  rw [json_loads_dumps_collection, parseCollection_collectionToJson]

/-- C7: with the empty query, the processor is never invoked and exactly
one warning is emitted. -/
theorem c7_empty_query_rejected :
    (searchEventsClick "".data).processorCalls = 0 ∧
    (searchEventsClick "".data).warnings = 1 ∧
    (searchEventsClick "".data).outcome = Outcome.warning :=
  ⟨rfl, rfl, rfl⟩

/-- C8: every response the backend produces is the wire document of some
event collection: an object whose `events` key holds an array of records
with exactly the five string fields `Event Title`, `Location`, `Date`,
`Time`, `Price` (that shape is what `collectionToJson` builds). -/
theorem c8_response_shape (q i : List Char) :
    ∃ ec : List EventRecord,
      json_loads (simulate_gemini_api_call q i) = some (collectionToJson ec) :=
  ⟨mockEvents, json_loads_simulate q i⟩

/-- C9: under the stub backend, for every non-empty query the response
always decodes (the parse-failure branch is unreachable), its `events`
list is the four mock rows (the empty-collection branch is unreachable),
and the click ends in the events-found state with exactly four rows. -/
theorem c9_stub_branches (q : List Char) (h : q ≠ []) :
    json_loads (simulate_gemini_api_call q GEMINI_PROMPT) =
      some (collectionToJson mockEvents) ∧
    (searchEventsClick q).outcome ≠ Outcome.parseFailed ∧
    (searchEventsClick q).outcome ≠ Outcome.noEvents q ∧
    ∃ l : JsonList, (searchEventsClick q).outcome = Outcome.eventsFound (.arr l) ∧
      l.length = 4 := by
  rw [searchEventsClick, if_neg h]
  rw [show ((⟨handleResponse q (simulate_gemini_api_call q GEMINI_PROMPT), 1, 0⟩ :
    ClickResult)).outcome = handleResponse q (simulate_gemini_api_call q GEMINI_PROMPT)
    from rfl, handleResponse_simulate q q GEMINI_PROMPT]
  refine ⟨json_loads_simulate q GEMINI_PROMPT, ?_, ?_, eventsToJsonList mockEvents, rfl, rfl⟩
  · exact fun hx => Outcome.noConfusion hx
  · exact fun hx => Outcome.noConfusion hx

/-- C9, witness: the query `x`. -/
theorem c9_witness :
    json_loads (simulate_gemini_api_call "x".data GEMINI_PROMPT) =
      some (collectionToJson mockEvents) ∧
    (searchEventsClick "x".data).outcome ≠ Outcome.parseFailed ∧
    (searchEventsClick "x".data).outcome ≠ Outcome.noEvents "x".data ∧
    ∃ l : JsonList,
      (searchEventsClick "x".data).outcome = Outcome.eventsFound (.arr l) ∧
      l.length = 4 :=
  c9_stub_branches "x".data (by decide)

/-- C10: the parse-failure message appears exactly when decoding the
response raises a JSON syntax error, and a response that is valid JSON
whose top level is not an object is handled by neither branch — the
fault escapes the handler. -/
theorem c10_fault_escapes (q s : List Char) :
    (handleResponse q s = Outcome.parseFailed ↔ json_loads s = none) ∧
    (∀ j, json_loads s = some j → (∀ ms, j ≠ Json.obj ms) →
      handleResponse q s = Outcome.unhandledFault) := by
  constructor
  · constructor
    · intro h
      rcases hj : json_loads s with _ | j
      · rfl
      · exfalso
        rw [handleResponse, hj] at h
        cases j <;> simp at h
        split_ifs at h
    · intro h
      simp [handleResponse, h]
  · intro j hj hno
    rw [handleResponse, hj]
    cases j with
    | obj ms => exact absurd rfl (hno ms)
    | null => rfl
    | bool b => rfl
    | num lexeme => rfl
    | str s => rfl
    | arr elems => rfl

/-- C10, witness: the response `[]` is valid non-object JSON and the
fault escapes. -/
theorem c10_witness :
    handleResponse "x".data "[]".data = Outcome.unhandledFault :=
  (c10_fault_escapes "x".data "[]".data).2 (Json.arr .nil) rfl
    (fun _ h => Json.noConfusion h)
